import Mathlib

/-!
Shallow embedding of the core of the WhatsApp chat analyzer
(repository file `stream.py`): the script classifier `is_bangla_text`,
the chat parser `parse_whatsapp_chat`, and the message filter
`filter_bangla_messages`.  Strings are modelled as `List Char`; Python
dicts holding the four message fields become the `Message` structure.
-/

namespace WhatsApp

/-- Python whitespace (the set stripped by `str.strip()`, matched by
`str.isspace()` on single characters, and by the regex class `\s` on
`str` patterns): the Unicode whitespace code points. -/
def pyIsSpace (c : Char) : Bool :=
  (9 ≤ c.toNat && c.toNat ≤ 13) || (28 ≤ c.toNat && c.toNat ≤ 31) ||
  c.toNat == 32 || c.toNat == 133 || c.toNat == 160 || c.toNat == 0x1680 ||
  (0x2000 ≤ c.toNat && c.toNat ≤ 0x200a) || c.toNat == 0x2028 ||
  c.toNat == 0x2029 || c.toNat == 0x202f || c.toNat == 0x205f ||
  c.toNat == 0x3000

/-- Python `str.strip()`: remove leading and trailing whitespace. -/
def pyStrip (l : List Char) : List Char :=
  ((l.dropWhile pyIsSpace).reverse.dropWhile pyIsSpace).reverse

/-- Python `str.lower()` restricted to ASCII letters.  The exclusion
keywords in the source are pure ASCII, so for the case-insensitive
keyword-containment test this ASCII mapping is the relevant part of
the full Unicode lowercasing. -/
def pyLower (c : Char) : Char :=
  if 65 ≤ c.toNat && c.toNat ≤ 90 then Char.ofNat (c.toNat + 32) else c

/-- The code-point ranges of the Unicode general category Nd (decimal
digit), the set matched by the regex class `\d` on `str` patterns
(verified exhaustively against CPython: `re.match` of `\d` accepts a
character exactly when `unicodedata.category` is `Nd`). -/
def ndRanges : List (Nat × Nat) :=
  [(0x30, 0x39), (0x660, 0x669), (0x6F0, 0x6F9), (0x7C0, 0x7C9), (0x966, 0x96F), (0x9E6, 0x9EF),
   (0xA66, 0xA6F), (0xAE6, 0xAEF), (0xB66, 0xB6F), (0xBE6, 0xBEF), (0xC66, 0xC6F), (0xCE6, 0xCEF),
   (0xD66, 0xD6F), (0xDE6, 0xDEF), (0xE50, 0xE59), (0xED0, 0xED9), (0xF20, 0xF29), (0x1040, 0x1049),
   (0x1090, 0x1099), (0x17E0, 0x17E9), (0x1810, 0x1819), (0x1946, 0x194F), (0x19D0, 0x19D9), (0x1A80, 0x1A89),
   (0x1A90, 0x1A99), (0x1B50, 0x1B59), (0x1BB0, 0x1BB9), (0x1C40, 0x1C49), (0x1C50, 0x1C59), (0xA620, 0xA629),
   (0xA8D0, 0xA8D9), (0xA900, 0xA909), (0xA9D0, 0xA9D9), (0xA9F0, 0xA9F9), (0xAA50, 0xAA59), (0xABF0, 0xABF9),
   (0xFF10, 0xFF19), (0x104A0, 0x104A9), (0x10D30, 0x10D39), (0x11066, 0x1106F), (0x110F0, 0x110F9), (0x11136, 0x1113F),
   (0x111D0, 0x111D9), (0x112F0, 0x112F9), (0x11450, 0x11459), (0x114D0, 0x114D9), (0x11650, 0x11659), (0x116C0, 0x116C9),
   (0x11730, 0x11739), (0x118E0, 0x118E9), (0x11950, 0x11959), (0x11C50, 0x11C59), (0x11D50, 0x11D59), (0x11DA0, 0x11DA9),
   (0x16A60, 0x16A69), (0x16AC0, 0x16AC9), (0x16B50, 0x16B59), (0x1D7CE, 0x1D7FF), (0x1E140, 0x1E149), (0x1E2F0, 0x1E2F9),
   (0x1E950, 0x1E959), (0x1FBF0, 0x1FBF9)]

/-- The regex class `\d` of a `str` pattern: any Unicode decimal digit
(category Nd), including for example the Bengali digits
U+09E6 to U+09EF. -/
def pyIsDigit (c : Char) : Bool :=
  ndRanges.any (fun p => p.1 ≤ c.toNat && c.toNat ≤ p.2)

/-- Python substring containment `needle in hay` for strings. -/
def pyIn (needle : List Char) : List Char → Bool
  | [] => needle.isPrefixOf []
  | c :: t => needle.isPrefixOf (c :: t) || pyIn needle t

/-- The fixed punctuation set skipped by the character counter in
`is_bangla_text` (the Python string literal
`.,!?;:@#$%^&*()[]\x7b\x7d+-=/\|<>~` followed by backtick, double
quote and single quote), given by character codes. -/
def skippedPunct : List Char :=
  [46, 44, 33, 63, 59, 58, 64, 35, 36, 37, 94, 38, 42, 40, 41, 91, 93,
   123, 125, 43, 45, 61, 47, 92, 124, 60, 62, 126, 96, 34, 39].map Char.ofNat

/-- `system_keywords` from `is_bangla_text` in `stream.py`. -/
def system_keywords : List (List Char) :=
  ["Messages and calls are end-to-end encrypted".toList,
   "created group".toList,
   "were added".toList,
   "left".toList,
   "changed".toList,
   "<Media omitted>".toList,
   "Waiting for this message".toList,
   "This message was deleted".toList,
   "changed to".toList]

/-- Single-character model of the truthiness of `char.strip()`: for a
one-character string, `strip()` is nonempty exactly when the character
is not whitespace. -/
def charStripNonempty (c : Char) : Bool := !pyIsSpace c

/-- The Bangla Unicode block test `\u0980 <= char <= \u09FF`. -/
def isBanglaChar (c : Char) : Bool :=
  0x0980 ≤ c.toNat && c.toNat ≤ 0x09FF

/-- A character is counted by the loop in `is_bangla_text` when
`char.strip() and not char.isspace() and char not in <punct>` holds. -/
def isCounted (c : Char) : Bool :=
  charStripNonempty c && !pyIsSpace c && !skippedPunct.contains c

/-- The counting loop of `is_bangla_text`: starting from the
accumulator `(bangla_chars, total_chars)`, scan the text and bump
`total_chars` for every counted character and `bangla_chars` for every
counted character in the Bangla block. -/
def countLoop : List Char → Nat × Nat → Nat × Nat
  | [], acc => acc
  | c :: cs, (b, t) =>
    if isCounted c then
      if isBanglaChar c then countLoop cs (b + 1, t + 1)
      else countLoop cs (b, t + 1)
    else countLoop cs (b, t)

/-- `is_bangla_text` from `stream.py`.  The final comparison
`(bangla_chars / total_chars) >= 0.25` is modelled as the exact
rational comparison `total_chars <= 4 * bangla_chars`; Python computes
it in double-precision floating point, which agrees with the exact
comparison for every `total_chars` below `2 ^ 54` (the threshold
`0.25` is exactly representable and the single rounding of the
quotient cannot cross it at such denominators). -/
def is_bangla_text (text : List Char) : Bool :=
  if text.isEmpty || (pyStrip text).length == 0 then false
  else if system_keywords.any
      (fun k => pyIn (k.map pyLower) (text.map pyLower)) then false
  else
    let bt := countLoop text (0, 0)
    if bt.2 == 0 then false
    else decide (bt.2 ≤ 4 * bt.1)

/-- A parsed chat message: the dict built by `parse_whatsapp_chat`. -/
structure Message where
  date : List Char
  time : List Char
  sender : List Char
  message : List Char
deriving DecidableEq

/-- The four raw capture groups of the header regex
`^(\d\x7b1,2\x7d/\d\x7b1,2\x7d/\d\x7b4\x7d),\s+(\d\x7b1,2\x7d:\d\x7b2\x7d\s*(?:am|pm))\s*-\s*([^:]+):\s*(.*)$`
(before any `.strip()` is applied by the caller). -/
structure HeaderMatch where
  date : List Char
  time : List Char
  sender : List Char
  text : List Char
deriving DecidableEq

/-- `\d\x7b1,2\x7d` followed by a non-digit literal: the maximal leading
digit run must have length 1 or 2 (digits are the Unicode Nd set that
the regex class `\d` matches). -/
def reqDigits12 (l : List Char) : Option (List Char × List Char) :=
  let p := l.span pyIsDigit
  if 1 ≤ p.fst.length && p.fst.length ≤ 2 then some p else none

/-- `\d\x7bn\x7d`: exactly `n` digit characters. -/
def reqDigitsExact (n : Nat) (l : List Char) : Option (List Char × List Char) :=
  if (l.take n).length == n && (l.take n).all pyIsDigit then
    some (l.take n, l.drop n)
  else none

/-- A literal character of the pattern. -/
def reqChar (c : Char) : List Char → Option (List Char)
  | x :: xs => if x == c then some xs else none
  | [] => none

/-- `\s+` followed by a non-whitespace literal: a nonempty maximal
whitespace run. -/
def reqSpace1 (l : List Char) : Option (List Char) :=
  let p := l.span pyIsSpace
  if 1 ≤ p.fst.length then some p.snd else none

/-- `\s*`: drop the maximal whitespace run. -/
def skipSpace (l : List Char) : List Char := l.dropWhile pyIsSpace

/-- `\s*` splitting off the consumed run (needed where the run is part
of a capture group). -/
def spanSpace (l : List Char) : List Char × List Char := l.span pyIsSpace

/-- `(?:am|pm)` under `re.IGNORECASE`: a letter `a` or `p` followed by
a letter `m`, any case, returned as written. -/
def reqAmPm : List Char → Option (List Char × List Char)
  | c1 :: c2 :: rest =>
    if (pyLower c1 == 'a' || pyLower c1 == 'p') && pyLower c2 == 'm' then
      some ([c1, c2], rest)
    else none
  | _ => none

/-- `\s*([^:]+):` with Python backtracking semantics.  The greedy `\s*`
takes the maximal whitespace run and `[^:]+` then runs to the first
colon; when everything before the first colon is whitespace the engine
backtracks `\s*` by one character so that `[^:]+` still matches one
(whitespace) character.  Returns the raw capture and the remainder
after the colon. -/
def reqSenderColon (r : List Char) : Option (List Char × List Char) :=
  let pw := r.span pyIsSpace
  let ps := pw.snd.span (fun c => c != ':')
  match ps.snd with
  | ':' :: rest =>
    if 1 ≤ ps.fst.length then some (ps.fst, rest)
    else
      match pw.fst.getLast? with
      | some c => some ([c], rest)
      | none => none
  | _ => none

/-- The header-line matcher: `re.match(pattern, line, re.IGNORECASE)`
for the pattern of `parse_whatsapp_chat`, returning the four raw
capture groups.  Each quantified piece of the pattern is followed by a
literal outside its character class, so the backtracking search is
deterministic and equals this sequential matcher (the one non-trivial
backtracking point, `\s*([^:]+):`, is handled in `reqSenderColon`). -/
def matchHeader (line : List Char) : Option HeaderMatch := do
  let (day, r1) ← reqDigits12 line
  let r2 ← reqChar '/' r1
  let (mon, r3) ← reqDigits12 r2
  let r4 ← reqChar '/' r3
  let (year, r5) ← reqDigitsExact 4 r4
  let r6 ← reqChar ',' r5
  let r7 ← reqSpace1 r6
  let (hh, r8) ← reqDigits12 r7
  let r9 ← reqChar ':' r8
  let (mm, r10) ← reqDigitsExact 2 r9
  let ws := spanSpace r10
  let (ampm, r12) ← reqAmPm ws.snd
  let r13 ← reqChar '-' (skipSpace r12)
  let (sender, r15) ← reqSenderColon r13
  pure { date := day ++ '/' :: mon ++ '/' :: year,
         time := hh ++ ':' :: mm ++ ws.fst ++ ampm,
         sender := sender,
         text := skipSpace r15 }

/-- Building the new `current_msg` dict from a header match:
`sender` and `message` are stripped, `date` and `time` kept raw. -/
def msgOfHeader (h : HeaderMatch) : Message :=
  { date := h.date, time := h.time,
    sender := pyStrip h.sender, message := pyStrip h.text }

/-- Python `str.split` on a separator character: `"".split` gives one
empty piece, and every separator occurrence opens a new piece. -/
def splitOnNl : List Char → List (List Char)
  | [] => [[]]
  | c :: cs =>
    if c == '\n' then [] :: splitOnNl cs
    else
      match splitOnNl cs with
      | [] => [[c]]
      | l :: ls => (c :: l) :: ls

/-- The line loop of `parse_whatsapp_chat`: `cur` is the
`current_msg` slot (`none` models Python `None`).  A header match
finalizes the current message and starts a new one; a non-blank
non-header line appends its stripped text to the current message after
a newline; at the end the current message, if any, is finalized. -/
def parseLines : List (List Char) → Option Message → List Message
  | [], cur =>
    match cur with
    | some m => [m]
    | none => []
  | line :: rest, cur =>
    match matchHeader line with
    | some h =>
      match cur with
      | some m => m :: parseLines rest (some (msgOfHeader h))
      | none => parseLines rest (some (msgOfHeader h))
    | none =>
      match cur with
      | some m =>
        if (pyStrip line).length ≠ 0 then
          parseLines rest
            (some { m with message := m.message ++ '\n' :: pyStrip line })
        else parseLines rest (some m)
      | none => parseLines rest none

/-- `parse_whatsapp_chat` from `stream.py`. -/
def parse_whatsapp_chat (chat_text : List Char) : List Message :=
  parseLines (splitOnNl chat_text) none

/-- `filter_bangla_messages` from `stream.py`. -/
def filter_bangla_messages : List Message → List Message
  | [] => []
  | m :: ms =>
    if is_bangla_text m.message then m :: filter_bangla_messages ms
    else filter_bangla_messages ms

/-- The header-derived fields of a message (the fields a continuation
line never touches). -/
def msgMeta (m : Message) : List Char × List Char × List Char :=
  (m.date, m.time, m.sender)

theorem parseLines_map_meta (lines : List (List Char)) (cur : Option Message) :
    (parseLines lines cur).map msgMeta
      = cur.toList.map msgMeta
        ++ (lines.filterMap matchHeader).map (fun h => msgMeta (msgOfHeader h)) := by
  induction lines generalizing cur with
  | nil => cases cur <;> simp [parseLines]
  | cons line rest ih =>
    cases hm : matchHeader line with
    | some h =>
      cases cur with
      | some m => simp [parseLines, hm, ih]
      | none => simp [parseLines, hm, ih]
    | none =>
      cases cur with
      | some m =>
        by_cases hb : (pyStrip line).length ≠ 0
        · simp [parseLines, hm, hb, ih, msgMeta]
        · simp [parseLines, hm, hb, ih]
      | none => simp [parseLines, hm, ih]

theorem length_filterMap_isSome {α β : Type} (f : α → Option β) (l : List α) :
    (l.filterMap f).length = (l.filter (fun x => (f x).isSome)).length := by
  induction l with
  | nil => rfl
  | cons x xs ih => cases hf : f x <;> simp [List.filterMap_cons, hf, ih]

/-- Claim C1: for every input string, `parse_whatsapp_chat` returns
exactly one message per line matched by the header grammar, in the
same relative order as the header lines occur in the input, with no
message produced from a non-header line and none reordered: the
header-derived fields of the output are exactly the image, in order,
of the header matches of the input lines, and the output length equals
the number of header lines. -/
theorem parse_one_message_per_header_line (t : List Char) :
    (parse_whatsapp_chat t).map msgMeta
      = ((splitOnNl t).filterMap matchHeader).map (fun h => msgMeta (msgOfHeader h))
    ∧ (parse_whatsapp_chat t).length
      = ((splitOnNl t).filter (fun l => (matchHeader l).isSome)).length := by
  have hmap := parseLines_map_meta (splitOnNl t) none
  simp only [Option.toList_none, List.map_nil, List.nil_append] at hmap
  refine ⟨hmap, ?_⟩
  have hlen : ((parse_whatsapp_chat t).map msgMeta).length
      = (((splitOnNl t).filterMap matchHeader).map
          (fun h => msgMeta (msgOfHeader h))).length := by
    rw [parse_whatsapp_chat, hmap]
  simpa [length_filterMap_isSome] using hlen

theorem filter_bangla_eq_filter (ms : List Message) :
    filter_bangla_messages ms = ms.filter (fun m => is_bangla_text m.message) := by
  induction ms with
  | nil => rfl
  | cons m rest ih =>
    by_cases hm : is_bangla_text m.message
    · simp [filter_bangla_messages, hm, ih]
    · simp [filter_bangla_messages, hm, ih]

/-- Claim C10: `filter_bangla_messages` returns exactly the input
messages whose `message` field satisfies `is_bangla_text`, as an
order-preserving subsequence of the input list, every element of which
is an unmodified input record. -/
theorem filter_bangla_messages_spec (ms : List Message) :
    filter_bangla_messages ms = ms.filter (fun m => is_bangla_text m.message)
    ∧ List.Sublist (filter_bangla_messages ms) ms := by
  refine ⟨filter_bangla_eq_filter ms, ?_⟩
  rw [filter_bangla_eq_filter ms]
  exact List.filter_sublist ms

/-- Claim C4: any text containing an exclusion-list keyword as a
case-insensitive substring is classified false, regardless of its
character content: the exclusion check takes precedence over the
character-ratio test. -/
theorem keyword_exclusion_precedence (t : List Char)
    (h : system_keywords.any
      (fun k => pyIn (k.map pyLower) (t.map pyLower)) = true) :
    is_bangla_text t = false := by
  simp [is_bangla_text, h]

/-- Claim C4 witness: the media-omitted placeholder is rejected. -/
theorem keyword_exclusion_precedence_witness :
    is_bangla_text ("<Media omitted>".toList) = false :=
  keyword_exclusion_precedence ("<Media omitted>".toList) (by decide)

/-- Claim C5: the round-trip scenario from the specification: the
two-header, one-continuation chat log parses into exactly the two
expected messages and the classifier maps them to true then false. -/
theorem round_trip_example :
    parse_whatsapp_chat
        ("1/2/2024, 9:05 am - Alice: হ্যালো\nকেমন আছেন\n2/2/2024, 9:06 am - Bob: hi".toList)
      = [{ date := "1/2/2024".toList, time := "9:05 am".toList,
           sender := "Alice".toList, message := "হ্যালো\nকেমন আছেন".toList },
         { date := "2/2/2024".toList, time := "9:06 am".toList,
           sender := "Bob".toList, message := "hi".toList }]
    ∧ (parse_whatsapp_chat
        ("1/2/2024, 9:05 am - Alice: হ্যালো\nকেমন আছেন\n2/2/2024, 9:06 am - Bob: hi".toList)).map
        (fun m => is_bangla_text m.message) = [true, false] := by
  constructor
  · rfl
  · rfl

/-- When the counted total is zero, every branch of the classifier
yields false. -/
theorem total_zero_false (t : List Char)
    (h0 : (countLoop t (0, 0)).2 = 0) : is_bangla_text t = false := by
  simp only [is_bangla_text]
  by_cases c1 : (t.isEmpty || (pyStrip t).length == 0) = true
  · rw [if_pos c1]
  · rw [if_neg c1]
    by_cases c2 : (system_keywords.any
        fun k => pyIn (List.map pyLower k) (List.map pyLower t)) = true
    · rw [if_pos c2]
    · rw [if_neg c2,
          if_pos (by simpa using h0 : (((countLoop t (0, 0)).2 == 0) = true))]

theorem countLoop_eq (l : List Char) (b t : Nat) :
    countLoop l (b, t)
      = (b + (l.filter (fun c => isCounted c && isBanglaChar c)).length,
         t + (l.filter isCounted).length) := by
  induction l generalizing b t with
  | nil => simp [countLoop]
  | cons c cs ih =>
    by_cases hc : isCounted c
    · by_cases hbc : isBanglaChar c
      · simp [countLoop, hc, hbc, ih, List.filter_cons]
        omega
      · simp [countLoop, hc, hbc, ih, List.filter_cons]
        omega
    · simp [countLoop, hc, ih, List.filter_cons]

/-- Claim C2: for a text that is not empty or all-whitespace, contains
no exclusion keyword, and has at least one counted character, the
classifier answers true exactly when the counted Bangla characters are
at least a quarter of all counted characters, as an inclusive exact
rational comparison. -/
theorem bangla_ratio_threshold (t : List Char)
    (h0 : (pyStrip t).length ≠ 0)
    (h1 : system_keywords.all
      (fun k => !pyIn (k.map pyLower) (t.map pyLower)) = true)
    (h2 : 1 ≤ (countLoop t (0, 0)).2) :
    is_bangla_text t = true ↔
      (1 : ℚ) / 4 ≤
        ((countLoop t (0, 0)).1 : ℚ) / ((countLoop t (0, 0)).2 : ℚ) := by
  have hne : t.isEmpty = false := by
    cases t with
    | nil => exact absurd rfl h0
    | cons c cs => rfl
  have hany : system_keywords.any
      (fun k => pyIn (k.map pyLower) (t.map pyLower)) = false := by
    rw [List.any_eq_false]
    intro k hk
    have hk2 := List.all_eq_true.mp h1 k hk
    simpa using hk2
  have hzero : ((countLoop t (0, 0)).2 == 0) = false := by
    simp only [beq_eq_false_iff_ne, ne_eq]
    omega
  have htpos : (0 : ℚ) < ((countLoop t (0, 0)).2 : ℚ) := by
    exact_mod_cast h2
  have hbt : is_bangla_text t
      = decide ((countLoop t (0, 0)).2 ≤ 4 * (countLoop t (0, 0)).1) := by
    simp only [is_bangla_text]
    rw [if_neg (by simp [hne, h0] :
          ¬ ((t.isEmpty || (pyStrip t).length == 0) = true)),
        if_neg (by simp [hany] :
          ¬ ((system_keywords.any
            fun k => pyIn (List.map pyLower k) (List.map pyLower t)) = true)),
        if_neg (by simpa using hzero : ¬ (((countLoop t (0, 0)).2 == 0) = true))]
  rw [hbt, decide_eq_true_eq]
  rw [div_le_div_iff₀ (by norm_num : (0 : ℚ) < 4) htpos, one_mul]
  constructor
  · intro hle
    have hle2 : (countLoop t (0, 0)).2 ≤ (countLoop t (0, 0)).1 * 4 := by omega
    exact_mod_cast hle2
  · intro hle
    have hle2 : (countLoop t (0, 0)).2 ≤ (countLoop t (0, 0)).1 * 4 := by
      exact_mod_cast hle
    omega

/-- Claim C2 witness: one Bangla character among four counted
characters is classified true (and satisfies the rational boundary
statement), while one among five is classified false. -/
theorem bangla_ratio_threshold_witness :
    (is_bangla_text ("হbcd".toList) = true ↔
      (1 : ℚ) / 4 ≤
        ((countLoop ("হbcd".toList) (0, 0)).1 : ℚ) /
          ((countLoop ("হbcd".toList) (0, 0)).2 : ℚ))
    ∧ is_bangla_text ("হbcd".toList) = true
    ∧ is_bangla_text ("হbcde".toList) = false :=
  ⟨bangla_ratio_threshold ("হbcd".toList) (by decide) (by decide) (by decide),
   by decide, by decide⟩

/-- The accumulated effect of a block of continuation lines on the
`message` field: every non-blank line contributes a newline followed
by its stripped text, in order; blank lines contribute nothing. -/
def contAppend (t : List Char) : List (List Char) → List Char
  | [] => t
  | l :: ls =>
    if (pyStrip l).length ≠ 0 then contAppend (t ++ '\n' :: pyStrip l) ls
    else contAppend t ls

/-- Claim C3: once a message is under construction, a block of
subsequent non-header lines changes only its `message` field, to which
every non-blank line of the block is appended in original order as a
newline followed by its stripped content; no continuation line is
dropped and the rest of the scan continues from the updated message. -/
theorem continuation_lines_appended :
    ∀ (pre : List (List Char)), (∀ l ∈ pre, matchHeader l = none) →
    ∀ (rest : List (List Char)) (m : Message),
      parseLines (pre ++ rest) (some m)
        = parseLines rest (some { m with message := contAppend m.message pre }) := by
  intro pre
  induction pre with
  | nil =>
    intro _ rest m
    simp [contAppend]
  | cons l ls ih =>
    intro hpre rest m
    have hl : matchHeader l = none := hpre l (List.mem_cons_self _ _)
    have hls : ∀ x ∈ ls, matchHeader x = none :=
      fun x hx => hpre x (List.mem_cons_of_mem _ hx)
    by_cases hb : (pyStrip l).length ≠ 0
    · simpa [parseLines, hl, hb, contAppend] using ih hls rest _
    · simpa [parseLines, hl, hb, contAppend] using ih hls rest m

/-- Claim C3 witness: a two-continuation-line block (with a blank line
between) is appended, stripped and newline-separated, to the message
under construction. -/
theorem continuation_lines_appended_witness :
    parseLines (["  hello  ".toList, "".toList, "world!".toList] ++ [])
        (some { date := "1/2/2024".toList, time := "9:05 am".toList,
                sender := "Alice".toList, message := "hi".toList })
      = parseLines []
        (some { date := "1/2/2024".toList, time := "9:05 am".toList,
                sender := "Alice".toList,
                message := contAppend ("hi".toList)
                  ["  hello  ".toList, "".toList, "world!".toList] }) :=
  continuation_lines_appended _ (by decide) [] _

/-- Claim C6 counterexample: for the header line
`1/2/2024, 9:05 am - Alice: hi ` (trailing space), the remainder after
the first colon trimmed of leading whitespace only is `hi ` (that is
exactly the raw fourth capture group), but the emitted message text is
`hi`: the trailing whitespace is removed as well. -/
theorem header_text_trailing_ws_counterexample :
    (matchHeader ("1/2/2024, 9:05 am - Alice: hi ".toList)).map HeaderMatch.text
      = some ("hi ".toList)
    ∧ (parse_whatsapp_chat ("1/2/2024, 9:05 am - Alice: hi ".toList)).map
        Message.message = ["hi".toList]
    ∧ ¬ ((parse_whatsapp_chat ("1/2/2024, 9:05 am - Alice: hi ".toList)).map
        Message.message = ["hi ".toList]) := by
  decide

/-- Claim C6 amended: for every header line matched by the parser, the
emitted message text equals the remainder of the line after the first
colon following the sender, trimmed of both leading and trailing
whitespace (Python `.strip()`). -/
theorem header_text_fully_stripped (line : List Char) (h : HeaderMatch)
    (hm : matchHeader line = some h) :
    parseLines [line] none = [msgOfHeader h]
    ∧ (msgOfHeader h).message = pyStrip h.text := by
  constructor
  · simp [parseLines, hm]
  · rfl

/-- Claim C6 amended witness: the trailing-space header line emits a
message whose text is the fully stripped capture. -/
theorem header_text_fully_stripped_witness :
    parseLines ["1/2/2024, 9:05 am - Alice: hi ".toList] none
      = [msgOfHeader { date := "1/2/2024".toList, time := "9:05 am".toList,
                       sender := "Alice".toList, text := "hi ".toList }]
    ∧ (msgOfHeader { date := "1/2/2024".toList, time := "9:05 am".toList,
                     sender := "Alice".toList, text := ("hi ".toList : List Char) }).message
      = pyStrip ("hi ".toList) :=
  header_text_fully_stripped _ _ (by decide)

theorem parseLines_none_skips :
    ∀ (pre : List (List Char)), (∀ l ∈ pre, matchHeader l = none) →
    ∀ (rest : List (List Char)),
      parseLines (pre ++ rest) none = parseLines rest none := by
  intro pre
  induction pre with
  | nil => intro _ rest; rfl
  | cons l ls ih =>
    intro hpre rest
    have hl : matchHeader l = none := hpre l (List.mem_cons_self _ _)
    simpa [parseLines, hl] using
      ih (fun x hx => hpre x (List.mem_cons_of_mem _ hx)) rest

/-- Claim C7: non-header lines occurring before any header line are
silently dropped: the parse result is the same as if the input started
at the first header line, and when the input contains no header line
at all the result is the empty sequence (no error is raised; the
embedding is total). -/
theorem pre_header_lines_dropped (t : List Char) (pre rest : List (List Char))
    (hsplit : splitOnNl t = pre ++ rest)
    (hpre : ∀ l ∈ pre, matchHeader l = none) :
    parse_whatsapp_chat t = parseLines rest none
    ∧ (rest = [] → parse_whatsapp_chat t = []) := by
  have h1 : parse_whatsapp_chat t = parseLines rest none := by
    rw [parse_whatsapp_chat, hsplit]
    exact parseLines_none_skips pre hpre rest
  refine ⟨h1, fun hr => ?_⟩
  rw [h1, hr]
  rfl

/-- Claim C7 witness: a leading junk line before the first header is
dropped, and an input of only junk lines parses to the empty list. -/
theorem pre_header_lines_dropped_witness :
    parse_whatsapp_chat ("no header here\nstill none".toList)
      = parseLines [] none
    ∧ ([] = ([] : List (List Char)) →
        parse_whatsapp_chat ("no header here\nstill none".toList) = []) :=
  pre_header_lines_dropped ("no header here\nstill none".toList)
    ["no header here".toList, "still none".toList] [] (by decide) (by decide)

/-- Claim C8: a text all of whose characters are skipped (whitespace
or the skipped punctuation set) is classified false, the counted total
being zero; this covers the empty and all-whitespace strings. -/
theorem all_skipped_classified_false (t : List Char)
    (h : ∀ c ∈ t, pyIsSpace c = true ∨ skippedPunct.contains c = true) :
    is_bangla_text t = false := by
  have hfil : t.filter isCounted = [] := by
    rw [List.filter_eq_nil_iff]
    intro c hc
    rcases h c hc with hsp | hpu
    · simp [isCounted, charStripNonempty, hsp]
    · have hmem : c ∈ skippedPunct := by simpa using hpu
      simp [isCounted, hmem]
  have htot : (countLoop t (0, 0)).2 = 0 := by
    rw [countLoop_eq]
    simp [hfil]
  exact total_zero_false t htot

/-- Claim C8 witness: the empty string, an all-whitespace string and a
pure punctuation string are all classified false. -/
theorem all_skipped_classified_false_witness :
    is_bangla_text ("".toList) = false
    ∧ is_bangla_text ("   ".toList) = false
    ∧ is_bangla_text (".,!? ".toList) = false :=
  ⟨all_skipped_classified_false ("".toList) (by decide),
   all_skipped_classified_false ("   ".toList) (by decide),
   all_skipped_classified_false (".,!? ".toList) (by decide)⟩

/-- Claim C9: the classifier is a total boolean function of the text
(the embedding returns a boolean on every input), and the ratio branch
is guarded: whenever the counted total is zero the function returns
false without evaluating any ratio. -/
theorem classifier_total_and_guarded (t : List Char) :
    (is_bangla_text t = false ∨ is_bangla_text t = true)
    ∧ ((countLoop t (0, 0)).2 = 0 → is_bangla_text t = false) := by
  constructor
  · cases hb : is_bangla_text t
    · exact Or.inl rfl
    · exact Or.inr rfl
  · intro h0
    exact total_zero_false t h0

/-- Claim C9 witness: a pure punctuation string has counted total zero
and is classified false through the guard. -/
theorem classifier_total_and_guarded_witness :
    is_bangla_text ("@@".toList) = false :=
  (classifier_total_and_guarded ("@@".toList)).2 (by decide)

end WhatsApp
